import Mathlib

/-!
Verification of the model versioning and validation engine of the
mcp_archi repository (src/mcp/servers/archimate/model_db.py and
src/mcp/servers/archimate/tools/archimate_model_query/tool.py).

The SQLite-backed store is shallowly embedded as pure Lean functions over
explicit state records.  Rows of the per-model tables (elements,
relationships, versions, attribute definitions, locks) are grouped under
the owning model, which mirrors the relational schema keyed by model_id.
SQL CURRENT_TIMESTAMP is modelled by an explicit clock argument `now`.
Python string truthiness (None and the empty string are falsy) is modelled
by `tval`.  JSON attribute and tag maps are association lists with Python
dict insert/remove semantics.  Errors raised as ModelError in Python are
an inductive error type carrying the same data as the message text.
-/

namespace McpArchi

/-- Association list standing for a JSON object / Python dict. -/
abbrev Attrs := List (String × String)

/-- Python dict assignment d[k] = v: replace in place if the key exists,
otherwise append. -/
def dictInsert (m : Attrs) (k v : String) : Attrs :=
  if m.any (fun p => p.1 == k) then
    m.map (fun p => if p.1 == k then (k, v) else p)
  else m ++ [(k, v)]

/-- Python d.pop(k, None): drop the key if present. -/
def dictRemove (m : Attrs) (k : String) : Attrs :=
  m.filter (fun p => p.1 != k)

/-- Python truthiness of an optional TEXT column: NULL and the empty
string are falsy. -/
def tval : Option String → Bool
  | none => false
  | some s => !s.isEmpty

/-- Unwrap an optional string for comparison (only used under tval guards,
matching the Python short-circuit evaluation). -/
def ostr : Option String → String
  | none => ""
  | some s => s

/-- Lexicographic comparison of character lists by code point. -/
def charListLt : List Char → List Char → Bool
  | [], [] => false
  | [], _ :: _ => true
  | _ :: _, [] => false
  | a :: as, b :: bs =>
      if Nat.blt a.val.toNat b.val.toNat then true
      else if Nat.blt b.val.toNat a.val.toNat then false
      else charListLt as bs

/-- Python string comparison a < b (lexicographic by code point). -/
def strLtB (a b : String) : Bool := charListLt a.data b.data

/-- Python string comparison a > b (lexicographic by code point). -/
def strGtB (a b : String) : Bool := strLtB b a

/-- Element row of the model_elements table (attributes_json and tags_json
decoded to association lists, as _row_dicts does). -/
structure Element where
  id : String
  type_name : String
  name : String
  attributes : Attrs
  tags : Attrs
  valid_from : Option String
  valid_to : Option String
  created_at : Nat
  updated_at : Nat
deriving DecidableEq

/-- Relationship row of the model_relationships table. -/
structure Relationship where
  id : String
  type_name : String
  source_element_id : String
  target_element_id : String
  name : String
  attributes : Attrs
  tags : Attrs
  valid_from : Option String
  valid_to : Option String
  created_at : Nat
  updated_at : Nat
deriving DecidableEq

/-- Model row of the models table. -/
structure ModelMeta where
  id : String
  name : String
  description : String
  attributes : Attrs
  created_at : Nat
  updated_at : Nat
  current_version : Nat
deriving DecidableEq

/-- Full snapshot as produced by _snapshot: the model row plus all
elements and relationships ordered by id. -/
structure Snapshot where
  model : ModelMeta
  elements : List Element
  relationships : List Relationship
deriving DecidableEq

/-- Version row of the model_versions table, with the snapshot JSON
decoded. -/
structure Version where
  version : Nat
  author : String
  message : String
  created_at : Nat
  snapshot : Snapshot
deriving DecidableEq

/-- Target kind of an attribute definition. -/
inductive TargetType where
  | element
  | relationship
deriving DecidableEq, BEq

/-- Row of the model_attribute_definitions table. -/
structure AttrDef where
  target_type : TargetType
  key : String
  description : String
  is_tag : Bool
deriving DecidableEq

/-- Row of the model_locks table (at most one per model). -/
structure Lock where
  owner : String
  acquired_at : Nat
deriving DecidableEq

/-- All rows owned by one model, grouped under it. -/
structure ModelState where
  meta : ModelMeta
  elements : List Element
  relationships : List Relationship
  versions : List Version
  attrDefs : List AttrDef
  lock : Option Lock
deriving DecidableEq

/-- The whole persistent store. -/
structure Store where
  models : List ModelState
deriving DecidableEq

/-- Domain errors (ModelError in the source), carrying the data that the
Python message strings interpolate. -/
inductive Err where
  | notFound (model_id : String)
  | modelIdExists (model_id : String)
  | versionConflict (expected current : Nat)
  | versionNotFound (model_id : String) (version : Nat)
  | elementNotFound (model_id element_id : String)
  | relationshipNotFound (model_id relationship_id : String)
  | sourceElementNotFound (model_id element_id : String)
  | targetElementNotFound (model_id element_id : String)
  | invalidTagKey (model_id : String) (target_type : TargetType) (key : String)
  | locked (model_id owner : String)
  | lockOwnerMismatch (model_id owner : String)
deriving DecidableEq

/-- Insertion step for sorting by a string key (SQL ORDER BY id). -/
def insertByKey {α : Type} (key : α → String) (x : α) : List α → List α
  | [] => [x]
  | y :: ys => if key x ≤ key y then x :: y :: ys else y :: insertByKey key x ys

/-- Insertion sort by a string key. -/
def sortByKey {α : Type} (key : α → String) : List α → List α
  | [] => []
  | x :: xs => insertByKey key x (sortByKey key xs)

/-- The helper _snapshot: model row plus elements and relationships, each
ORDER BY id. -/
def snapshotOf (ms : ModelState) : Snapshot :=
  { model := ms.meta
    elements := sortByKey Element.id ms.elements
    relationships := sortByKey Relationship.id ms.relationships }

/-- The helper _create_version: read current_version, store the snapshot
as version current_version + 1, then bump current_version and updated_at.
Returns the new version number together with the new state. -/
def createVersion (now : Nat) (author message : String) (ms : ModelState) :
    Nat × ModelState :=
  let next := ms.meta.current_version + 1
  let v : Version :=
    { version := next
      author := if author == "" then "system" else author
      message := message
      created_at := now
      snapshot := snapshotOf ms }
  (next,
   { ms with
      versions := ms.versions ++ [v]
      meta := { ms.meta with current_version := next, updated_at := now } })

/-- The helper _ensure_expected_version: succeed when no expected version
is supplied, otherwise fail with a version conflict carrying both the
expected and the current value on mismatch. -/
def ensureExpectedVersion (ms : ModelState) (expected : Option Nat) :
    Except Err Unit :=
  match expected with
  | none => Except.ok ()
  | some ev =>
      if ev == ms.meta.current_version then Except.ok ()
      else Except.error (Err.versionConflict ev ms.meta.current_version)

/-- Result of update_model (the fresh version number). -/
structure UpdateModelResult where
  version : Nat
deriving DecidableEq

/-- update_model: optionally patch name, description and attributes, then
unconditionally create one new version. -/
def update_model (now : Nat) (name description : Option String)
    (attributes : Option Attrs) (expected_version : Option Nat)
    (author message : String) (ms : ModelState) :
    Except Err (UpdateModelResult × ModelState) :=
  match ensureExpectedVersion ms expected_version with
  | Except.error e => Except.error e
  | Except.ok _ =>
      let meta' := { ms.meta with
        name := name.getD ms.meta.name
        description := description.getD ms.meta.description
        attributes := attributes.getD ms.meta.attributes
        updated_at :=
          if name.isSome || description.isSome || attributes.isSome then now
          else ms.meta.updated_at }
      let r := createVersion now author message { ms with meta := meta' }
      Except.ok (⟨r.1⟩, r.2)

/-- Result of an element or relationship upsert. -/
structure UpsertResult where
  status : String
  subject_id : String
  version : Nat
deriving DecidableEq

/-- upsert_model_element: INSERT OR REPLACE keyed by id, preserving the
prior tags_json and created_at via the COALESCE sub-selects. -/
def upsert_model_element (now : Nat) (type_name name element_id : String)
    (attributes : Attrs) (valid_from valid_to : Option String)
    (expected_version : Option Nat) (author message : String)
    (ms : ModelState) : Except Err (UpsertResult × ModelState) :=
  match ensureExpectedVersion ms expected_version with
  | Except.error e => Except.error e
  | Except.ok _ =>
      let old := ms.elements.find? (fun e => e.id == element_id)
      let newElem : Element :=
        { id := element_id
          type_name := type_name
          name := name
          attributes := attributes
          tags := match old with | some e => e.tags | none => []
          valid_from := valid_from
          valid_to := valid_to
          created_at := match old with | some e => e.created_at | none => now
          updated_at := now }
      let elements' := match old with
        | some _ => ms.elements.map (fun e => if e.id == element_id then newElem else e)
        | none => ms.elements ++ [newElem]
      let r := createVersion now author message { ms with elements := elements' }
      Except.ok (⟨if old.isSome then "updated" else "created", element_id, r.1⟩, r.2)

/-- Result of delete_model_element, reporting the cascade count. -/
structure DeleteElementResult where
  status : String
  element_id : String
  relationships_deleted : Nat
  version : Nat
deriving DecidableEq

/-- Does the relationship reference the element as source or target. -/
def refersTo (element_id : String) (r : Relationship) : Bool :=
  r.source_element_id == element_id || r.target_element_id == element_id

/-- delete_model_element: first delete every relationship whose source or
target is the element (recording the count), then the element itself;
fail if the element did not exist (the transaction then rolls back), else
create one new version. -/
def delete_model_element (now : Nat) (element_id : String)
    (expected_version : Option Nat) (author message : String)
    (ms : ModelState) : Except Err (DeleteElementResult × ModelState) :=
  match ensureExpectedVersion ms expected_version with
  | Except.error e => Except.error e
  | Except.ok _ =>
      let relDeleted := (ms.relationships.filter (refersTo element_id)).length
      let rels' := ms.relationships.filter (fun r => !(refersTo element_id r))
      let elemDeleted := (ms.elements.filter (fun e => e.id == element_id)).length
      let elements' := ms.elements.filter (fun e => e.id != element_id)
      if elemDeleted == 0 then
        Except.error (Err.elementNotFound ms.meta.id element_id)
      else
        let r := createVersion now author message
          { ms with elements := elements', relationships := rels' }
        Except.ok (⟨"deleted", element_id, relDeleted, r.1⟩, r.2)

/-- upsert_model_relationship: both endpoints must already exist in the
same model; then INSERT OR REPLACE keyed by id, preserving prior tags_json
and created_at. -/
def upsert_model_relationship (now : Nat)
    (type_name source_element_id target_element_id relationship_id name : String)
    (attributes : Attrs) (valid_from valid_to : Option String)
    (expected_version : Option Nat) (author message : String)
    (ms : ModelState) : Except Err (UpsertResult × ModelState) :=
  match ensureExpectedVersion ms expected_version with
  | Except.error e => Except.error e
  | Except.ok _ =>
      if !(ms.elements.any (fun e => e.id == source_element_id)) then
        Except.error (Err.sourceElementNotFound ms.meta.id source_element_id)
      else if !(ms.elements.any (fun e => e.id == target_element_id)) then
        Except.error (Err.targetElementNotFound ms.meta.id target_element_id)
      else
        let old := ms.relationships.find? (fun r => r.id == relationship_id)
        let newRel : Relationship :=
          { id := relationship_id
            type_name := type_name
            source_element_id := source_element_id
            target_element_id := target_element_id
            name := name
            attributes := attributes
            tags := match old with | some r => r.tags | none => []
            valid_from := valid_from
            valid_to := valid_to
            created_at := match old with | some r => r.created_at | none => now
            updated_at := now }
        let rels' := match old with
          | some _ => ms.relationships.map (fun r => if r.id == relationship_id then newRel else r)
          | none => ms.relationships ++ [newRel]
        let r := createVersion now author message { ms with relationships := rels' }
        Except.ok (⟨if old.isSome then "updated" else "created", relationship_id, r.1⟩, r.2)

/-- Result of delete_model_relationship. -/
structure DeleteRelationshipResult where
  status : String
  relationship_id : String
  version : Nat
deriving DecidableEq

/-- delete_model_relationship: delete the row by id, fail if it was
absent, else create one new version. -/
def delete_model_relationship (now : Nat) (relationship_id : String)
    (expected_version : Option Nat) (author message : String)
    (ms : ModelState) : Except Err (DeleteRelationshipResult × ModelState) :=
  match ensureExpectedVersion ms expected_version with
  | Except.error e => Except.error e
  | Except.ok _ =>
      let deleted := (ms.relationships.filter (fun r => r.id == relationship_id)).length
      let rels' := ms.relationships.filter (fun r => r.id != relationship_id)
      if deleted == 0 then
        Except.error (Err.relationshipNotFound ms.meta.id relationship_id)
      else
        let r := createVersion now author message { ms with relationships := rels' }
        Except.ok (⟨"deleted", relationship_id, r.1⟩, r.2)

/-- get_version: look up a stored version by number. -/
def get_version (ms : ModelState) (version : Nat) : Except Err Version :=
  match ms.versions.find? (fun v => v.version == version) with
  | some v => Except.ok v
  | none => Except.error (Err.versionNotFound ms.meta.id version)

/-- Row re-inserted by revert_to_version: only model_id, id, type_name,
name, attributes_json, valid_from and valid_to are supplied, so tags_json
falls back to its empty default and both timestamps to CURRENT_TIMESTAMP. -/
def restoreElement (now : Nat) (e : Element) : Element :=
  { id := e.id
    type_name := e.type_name
    name := e.name
    attributes := e.attributes
    tags := []
    valid_from := e.valid_from
    valid_to := e.valid_to
    created_at := now
    updated_at := now }

/-- Relationship row re-inserted by revert_to_version; as for elements,
tags_json and the timestamps are reset to their column defaults. -/
def restoreRelationship (now : Nat) (r : Relationship) : Relationship :=
  { id := r.id
    type_name := r.type_name
    source_element_id := r.source_element_id
    target_element_id := r.target_element_id
    name := r.name
    attributes := r.attributes
    tags := []
    valid_from := r.valid_from
    valid_to := r.valid_to
    created_at := now
    updated_at := now }

/-- Result of revert_to_version. -/
structure RevertResult where
  status : String
  from_version : Nat
  version : Nat
deriving DecidableEq

/-- revert_to_version: load the target snapshot, wipe current elements
and relationships, restore model metadata and re-insert the snapshot rows
(without their tag maps or timestamps, see restoreElement), then create
one new version on top. -/
def revert_to_version (now : Nat) (version : Nat)
    (expected_version : Option Nat) (author : String) (ms : ModelState) :
    Except Err (RevertResult × ModelState) :=
  match ensureExpectedVersion ms expected_version with
  | Except.error e => Except.error e
  | Except.ok _ =>
      match get_version ms version with
      | Except.error e => Except.error e
      | Except.ok vd =>
          let snap := vd.snapshot
          let meta' := { ms.meta with
            name := snap.model.name
            description := snap.model.description
            attributes := snap.model.attributes
            updated_at := now }
          let elements' := snap.elements.map (restoreElement now)
          let relationships' := snap.relationships.map (restoreRelationship now)
          let r := createVersion now author ("Reverted to version " ++ toString version)
            { ms with meta := meta', elements := elements', relationships := relationships' }
          Except.ok (⟨"reverted", version, r.1⟩, r.2)

/-- The helper _resolve_tag_key: the key must be defined for the target
kind with is_tag set. -/
def resolveTagKey (ms : ModelState) (tt : TargetType) (key : String) :
    Except Err Unit :=
  if ms.attrDefs.any (fun d => d.target_type == tt && d.key == key && d.is_tag) then
    Except.ok ()
  else Except.error (Err.invalidTagKey ms.meta.id tt key)

/-- Result of the tag operations (the updated tag map is returned). -/
structure TagResult where
  subject_id : String
  tags : Attrs
  version : Nat
deriving DecidableEq

/-- add_element_tag: the key must be a defined tag key; set it on the
element and create one new version.  No expected_version parameter exists
for the tag operations. -/
def add_element_tag (now : Nat) (element_id key value : String)
    (author message : String) (ms : ModelState) :
    Except Err (TagResult × ModelState) :=
  match resolveTagKey ms TargetType.element key with
  | Except.error e => Except.error e
  | Except.ok _ =>
      match ms.elements.find? (fun e => e.id == element_id) with
      | none => Except.error (Err.elementNotFound ms.meta.id element_id)
      | some e =>
          let tags' := dictInsert e.tags key value
          let elements' := ms.elements.map (fun x =>
            if x.id == element_id then { x with tags := tags', updated_at := now } else x)
          let r := createVersion now author message { ms with elements := elements' }
          Except.ok (⟨element_id, tags', r.1⟩, r.2)

/-- remove_element_tag: no tag-key check; removing an absent key is a
silent no-op on the tag map, but one new version is still created. -/
def remove_element_tag (now : Nat) (element_id key : String)
    (author message : String) (ms : ModelState) :
    Except Err (TagResult × ModelState) :=
  match ms.elements.find? (fun e => e.id == element_id) with
  | none => Except.error (Err.elementNotFound ms.meta.id element_id)
  | some e =>
      let tags' := dictRemove e.tags key
      let elements' := ms.elements.map (fun x =>
        if x.id == element_id then { x with tags := tags', updated_at := now } else x)
      let r := createVersion now author message { ms with elements := elements' }
      Except.ok (⟨element_id, tags', r.1⟩, r.2)

/-- add_relationship_tag: as add_element_tag, for relationships. -/
def add_relationship_tag (now : Nat) (relationship_id key value : String)
    (author message : String) (ms : ModelState) :
    Except Err (TagResult × ModelState) :=
  match resolveTagKey ms TargetType.relationship key with
  | Except.error e => Except.error e
  | Except.ok _ =>
      match ms.relationships.find? (fun r => r.id == relationship_id) with
      | none => Except.error (Err.relationshipNotFound ms.meta.id relationship_id)
      | some r0 =>
          let tags' := dictInsert r0.tags key value
          let rels' := ms.relationships.map (fun x =>
            if x.id == relationship_id then { x with tags := tags', updated_at := now } else x)
          let r := createVersion now author message { ms with relationships := rels' }
          Except.ok (⟨relationship_id, tags', r.1⟩, r.2)

/-- remove_relationship_tag: as remove_element_tag, for relationships. -/
def remove_relationship_tag (now : Nat) (relationship_id key : String)
    (author message : String) (ms : ModelState) :
    Except Err (TagResult × ModelState) :=
  match ms.relationships.find? (fun r => r.id == relationship_id) with
  | none => Except.error (Err.relationshipNotFound ms.meta.id relationship_id)
  | some r0 =>
      let tags' := dictRemove r0.tags key
      let rels' := ms.relationships.map (fun x =>
        if x.id == relationship_id then { x with tags := tags', updated_at := now } else x)
      let r := createVersion now author message { ms with relationships := rels' }
      Except.ok (⟨relationship_id, tags', r.1⟩, r.2)

/-- Result of acquire_lock. -/
structure AcquireLockResult where
  status : String
  owner : String
deriving DecidableEq

/-- acquire_lock: idempotent for the same owner; held by another owner it
fails unless force, in which case the lock is replaced. -/
def acquire_lock (now : Nat) (owner : String) (force : Bool)
    (ms : ModelState) : Except Err (AcquireLockResult × ModelState) :=
  match ms.lock with
  | some l =>
      if l.owner == owner then
        Except.ok (⟨"already_locked", owner⟩, ms)
      else if !force then
        Except.error (Err.locked ms.meta.id l.owner)
      else
        Except.ok (⟨"locked", owner⟩, { ms with lock := some ⟨owner, now⟩ })
  | none =>
      Except.ok (⟨"locked", owner⟩, { ms with lock := some ⟨owner, now⟩ })

/-- Result of release_lock (owner is the previous holder when one existed). -/
structure ReleaseLockResult where
  status : String
  owner : Option String
deriving DecidableEq

/-- release_lock: not-locked is a no-op success; a supplied, truthy owner
that differs from the holder fails unless force; otherwise the lock row is
deleted.  The Python guard is: not force and owner and owner differs. -/
def release_lock (owner : Option String) (force : Bool) (ms : ModelState) :
    Except Err (ReleaseLockResult × ModelState) :=
  match ms.lock with
  | none => Except.ok (⟨"not_locked", none⟩, ms)
  | some l =>
      let ownerMismatch := match owner with
        | none => false
        | some s => !s.isEmpty && s != l.owner
      if !force && ownerMismatch then
        Except.error (Err.lockOwnerMismatch ms.meta.id l.owner)
      else
        Except.ok (⟨"released", some l.owner⟩, { ms with lock := none })

/-- define_attribute: INSERT OR REPLACE into the per-model dictionary,
keyed by (target kind, key).  Not versioned and no existence check; on a
missing model this is a no-op in the grouped representation. -/
def define_attribute (model_id : String) (tt : TargetType)
    (key description : String) (is_tag : Bool) (st : Store) : Store :=
  { models := st.models.map (fun ms =>
      if ms.meta.id == model_id then
        let d : AttrDef := ⟨tt, key, description, is_tag⟩
        if ms.attrDefs.any (fun a => a.target_type == tt && a.key == key) then
          { ms with attrDefs := ms.attrDefs.map (fun a =>
              if a.target_type == tt && a.key == key then d else a) }
        else { ms with attrDefs := ms.attrDefs ++ [d] }
      else ms) }

/-- Version row as returned by list_versions (snapshot_json not selected). -/
structure VersionMeta where
  version : Nat
  author : String
  message : String
  created_at : Nat
deriving DecidableEq

/-- Descending insertion step for ORDER BY version DESC. -/
def insertVersionDesc (x : Version) : List Version → List Version
  | [] => [x]
  | y :: ys => if y.version ≤ x.version then x :: y :: ys else y :: insertVersionDesc x ys

/-- Sort version rows by version number, newest first. -/
def sortVersionsDesc : List Version → List Version
  | [] => []
  | x :: xs => insertVersionDesc x (sortVersionsDesc xs)

/-- list_versions: version rows newest first, limit clamped to [1, 1000]. -/
def list_versions (ms : ModelState) (limit : Int) : List VersionMeta :=
  let lim := (max 1 (min limit 1000)).toNat
  ((sortVersionsDesc ms.versions).take lim).map
    (fun v => ⟨v.version, v.author, v.message, v.created_at⟩)

/-- The mutating operations of the model store that act on one existing
model (the section 4.1 contract minus model creation and deletion).
Identifier arguments the source would generate as UUIDs are taken as
explicit inputs.  Only the operations that take an expected_version in
the source carry one here. -/
inductive MOp where
  | updateModel (name description : Option String) (attributes : Option Attrs)
      (expected_version : Option Nat) (author message : String)
  | upsertElement (type_name name element_id : String) (attributes : Attrs)
      (valid_from valid_to : Option String) (expected_version : Option Nat)
      (author message : String)
  | deleteElement (element_id : String) (expected_version : Option Nat)
      (author message : String)
  | upsertRelationship (type_name source_element_id target_element_id
      relationship_id name : String) (attributes : Attrs)
      (valid_from valid_to : Option String) (expected_version : Option Nat)
      (author message : String)
  | deleteRelationship (relationship_id : String) (expected_version : Option Nat)
      (author message : String)
  | revertToVersion (version : Nat) (expected_version : Option Nat) (author : String)
  | addElementTag (element_id key value author message : String)
  | removeElementTag (element_id key author message : String)
  | addRelationshipTag (relationship_id key value author message : String)
  | removeRelationshipTag (relationship_id key author message : String)
deriving DecidableEq

/-- Dispatch a mutating operation against a model state, discarding the
operation-specific result. -/
def stepModel (now : Nat) (op : MOp) (ms : ModelState) : Except Err ModelState :=
  match op with
  | MOp.updateModel n d a ev au msg =>
      (update_model now n d a ev au msg ms).map (fun r => r.2)
  | MOp.upsertElement ty nm eid attrs vf vt ev au msg =>
      (upsert_model_element now ty nm eid attrs vf vt ev au msg ms).map (fun r => r.2)
  | MOp.deleteElement eid ev au msg =>
      (delete_model_element now eid ev au msg ms).map (fun r => r.2)
  | MOp.upsertRelationship ty src tgt rid nm attrs vf vt ev au msg =>
      (upsert_model_relationship now ty src tgt rid nm attrs vf vt ev au msg ms).map (fun r => r.2)
  | MOp.deleteRelationship rid ev au msg =>
      (delete_model_relationship now rid ev au msg ms).map (fun r => r.2)
  | MOp.revertToVersion v ev au =>
      (revert_to_version now v ev au ms).map (fun r => r.2)
  | MOp.addElementTag eid k v au msg =>
      (add_element_tag now eid k v au msg ms).map (fun r => r.2)
  | MOp.removeElementTag eid k au msg =>
      (remove_element_tag now eid k au msg ms).map (fun r => r.2)
  | MOp.addRelationshipTag rid k v au msg =>
      (add_relationship_tag now rid k v au msg ms).map (fun r => r.2)
  | MOp.removeRelationshipTag rid k au msg =>
      (remove_relationship_tag now rid k au msg ms).map (fun r => r.2)

/-- The expected_version argument an operation carries, when its source
signature has one at all. -/
def expectedOf : MOp → Option (Option Nat)
  | MOp.updateModel _ _ _ ev _ _ => some ev
  | MOp.upsertElement _ _ _ _ _ _ ev _ _ => some ev
  | MOp.deleteElement _ ev _ _ => some ev
  | MOp.upsertRelationship _ _ _ _ _ _ _ _ ev _ _ => some ev
  | MOp.deleteRelationship _ ev _ _ => some ev
  | MOp.revertToVersion _ ev _ => some ev
  | MOp.addElementTag _ _ _ _ _ => none
  | MOp.removeElementTag _ _ _ _ => none
  | MOp.addRelationshipTag _ _ _ _ _ => none
  | MOp.removeRelationshipTag _ _ _ _ => none

/-- Look a model up in the store (_get_model_row). -/
def findModel (st : Store) (model_id : String) : Option ModelState :=
  st.models.find? (fun ms => ms.meta.id == model_id)

/-- Write an updated model state back into the store. -/
def replaceModel (st : Store) (ms : ModelState) : Store :=
  { models := st.models.map (fun m => if m.meta.id == ms.meta.id then ms else m) }

/-- Store-level dispatch: _ensure_model_exists, then the operation. -/
def stepStore (now : Nat) (model_id : String) (op : MOp) (st : Store) :
    Except Err Store :=
  match findModel st model_id with
  | none => Except.error (Err.notFound model_id)
  | some ms => (stepModel now op ms).map (replaceModel st)

/-- create_model: the id must be fresh; the model row starts with
current_version 0 and the initial version (number 1) is created
immediately. -/
def create_model (now : Nat) (name description : String) (attributes : Attrs)
    (model_id author : String) (st : Store) : Except Err (Nat × Store) :=
  if (findModel st model_id).isSome then
    Except.error (Err.modelIdExists model_id)
  else
    let meta : ModelMeta :=
      { id := model_id, name := name, description := description
        attributes := attributes, created_at := now, updated_at := now
        current_version := 0 }
    let ms : ModelState :=
      { meta := meta, elements := [], relationships := [], versions := []
        attrDefs := [], lock := none }
    let r := createVersion now author "Model created" ms
    Except.ok (r.1, { models := st.models ++ [r.2] })

/-- delete_model: a bare DELETE with no existence check; the rowcount of
deleted model rows is returned (0 when the model was absent). -/
def delete_model (model_id : String) (st : Store) : Nat × Store :=
  ((st.models.filter (fun ms => ms.meta.id == model_id)).length,
   { models := st.models.filter (fun ms => ms.meta.id != model_id) })

/-- Apply a timestamped sequence of mutating operations; fail on the
first error. -/
def applyOps : List (Nat × MOp) → ModelState → Except Err ModelState
  | [], ms => Except.ok ms
  | (now, op) :: rest, ms =>
      match stepModel now op ms with
      | Except.error e => Except.error e
      | Except.ok ms' => applyOps rest ms'

/-- The version numbers stored for a model, in row order. -/
def versionNums (ms : ModelState) : List Nat :=
  ms.versions.map (fun v => v.version)

/-- The contiguous list 1, 2, ..., n. -/
def natsUpTo : Nat → List Nat
  | 0 => []
  | n + 1 => natsUpTo n ++ [n + 1]

/-- The metamodel catalog rows consulted by validate_model (SELECT name
FROM elements / relationships). -/
structure Catalog where
  element_types : List String
  relationship_types : List String
deriving DecidableEq

/-- One validation issue (the severity, the code and the element or
relationship id the Python message interpolates). -/
structure Issue where
  severity : String
  code : String
  subject : String
deriving DecidableEq

/-- Embedding of the Python str.lower() case fold used by the
case-insensitive type-name comparison (character-wise lower casing of the
string, kernel-computable). -/
def lowerStr (s : String) : String := ⟨s.data.map Char.toLower⟩

/-- Element checks of validate_model: unknown type (case-insensitive
against the catalog) is an error, valid_from later than valid_to is an
error. -/
def elemIssuesOf (knownE : List String) (e : Element) : List Issue :=
  (if !(knownE.contains (lowerStr e.type_name)) then
    [⟨"error", "UNKNOWN_ELEMENT_TYPE", e.id⟩] else []) ++
  (if tval e.valid_from && tval e.valid_to &&
      strGtB (ostr e.valid_from) (ostr e.valid_to) then
    [⟨"error", "INVALID_ELEMENT_TIME_RANGE", e.id⟩] else [])

/-- Relationship checks of validate_model: unknown type and missing
endpoints and inverted time range are errors; the four temporal window
warnings all sit behind the combined guard that both endpoints are known
elements and the relationship valid_from is truthy. -/
def relIssuesOf (knownR : List String) (element_ids : List String)
    (elemTime : String → Option (Option String × Option String))
    (r : Relationship) : List Issue :=
  (if !(knownR.contains (lowerStr r.type_name)) then
    [⟨"error", "UNKNOWN_RELATIONSHIP_TYPE", r.id⟩] else []) ++
  (if !(element_ids.contains r.source_element_id) ||
      !(element_ids.contains r.target_element_id) then
    [⟨"error", "MISSING_REL_ENDPOINT", r.id⟩] else []) ++
  (if tval r.valid_from && tval r.valid_to &&
      strGtB (ostr r.valid_from) (ostr r.valid_to) then
    [⟨"error", "INVALID_REL_TIME_RANGE", r.id⟩] else []) ++
  (match elemTime r.source_element_id, elemTime r.target_element_id with
   | some (src_from, src_to), some (tgt_from, tgt_to) =>
       if tval r.valid_from then
         (if tval src_from && strLtB (ostr r.valid_from) (ostr src_from) then
           [⟨"warning", "REL_BEFORE_SOURCE", r.id⟩] else []) ++
         (if tval tgt_from && strLtB (ostr r.valid_from) (ostr tgt_from) then
           [⟨"warning", "REL_BEFORE_TARGET", r.id⟩] else []) ++
         (if tval r.valid_to && tval src_to && strGtB (ostr r.valid_to) (ostr src_to) then
           [⟨"warning", "REL_AFTER_SOURCE", r.id⟩] else []) ++
         (if tval r.valid_to && tval tgt_to && strGtB (ostr r.valid_to) (ostr tgt_to) then
           [⟨"warning", "REL_AFTER_TARGET", r.id⟩] else [])
       else []
   | _, _ => [])

/-- Result of validate_model, with the summary counters inlined. -/
structure ValidationResult where
  model_id : String
  model_name : String
  is_valid : Bool
  elements : Nat
  relationships : Nat
  errors : Nat
  warnings : Nat
  issues : List Issue
deriving DecidableEq

/-- Validity window lookup used for the temporal checks (the elem_time
dict: defined exactly for the ids of the model elements). -/
def elemTimeOf (ms : ModelState) (eid : String) :
    Option (Option String × Option String) :=
  (ms.elements.find? (fun e => e.id == eid)).map (fun e => (e.valid_from, e.valid_to))

/-- validate_model as a pure function of the model state and the catalog:
collect all issues, count errors, and a model is valid iff the error
count is zero. -/
def validate_model (cat : Catalog) (ms : ModelState) : ValidationResult :=
  let knownE := cat.element_types.map lowerStr
  let knownR := cat.relationship_types.map lowerStr
  let element_ids := ms.elements.map (fun e => e.id)
  let issues := (ms.elements.map (elemIssuesOf knownE)).flatten ++
    (ms.relationships.map (relIssuesOf knownR element_ids (elemTimeOf ms))).flatten
  let error_count := (issues.filter (fun i => i.severity == "error")).length
  { model_id := ms.meta.id
    model_name := ms.meta.name
    is_valid := error_count == 0
    elements := ms.elements.length
    relationships := ms.relationships.length
    errors := error_count
    warnings := issues.length - error_count
    issues := issues }

/-- Directed edge of the relationship graph as read by _path_exists
(source_element_id, target_element_id, type_name). -/
structure GEdge where
  src : String
  tgt : String
  rty : String
deriving DecidableEq

/-- One hop of a reported path. -/
structure PStep where
  hop_from : String
  hop_to : String
  relationship_type : String
deriving DecidableEq

/-- Result of _path_exists. -/
structure PathResult where
  found : Bool
  depth : Option Nat
  path : List PStep
deriving DecidableEq

/-- Forward successors of a node with the relationship type, in edge
discovery order (the adjacency dict built by _path_exists). -/
def successors (edges : List GEdge) (n : String) : List (String × String) :=
  (edges.filter (fun e => e.src == n)).map (fun e => (e.tgt, e.rty))

/-- Visited states of the breadth-first search are (node, depth) pairs. -/
abbrev BfsState := String × Nat

/-- Queue entries carry the node, its depth and the path that reached it. -/
abbrev QEntry := String × Nat × List PStep

/-- Membership test on the visited set. -/
def stContains (l : List BfsState) (s : BfsState) : Bool :=
  l.any (fun t => t.1 == s.1 && t.2 == s.2)

/-- Expansion step of the BFS loop body: walk the successors in order,
skipping states already visited and appending fresh ones to both the
queue and the visited set. -/
def bfsExpand (node : String) (depth : Nat) (path : List PStep)
    (succ : List (String × String)) (queue : List QEntry)
    (visited : List BfsState) : List QEntry × List BfsState :=
  succ.foldl
    (fun acc nt =>
      if stContains acc.2 (nt.1, depth + 1) then acc
      else (acc.1 ++ [(nt.1, depth + 1, path ++ [⟨node, nt.1, nt.2⟩])],
            acc.2 ++ [(nt.1, depth + 1)]))
    (queue, visited)

/-- The while-loop of _path_exists, with an explicit fuel bound; none
means the fuel ran out before the queue emptied or the target was found. -/
def bfsLoop (edges : List GEdge) (target : String) (maxDepth : Nat) :
    Nat → List QEntry → List BfsState → Option PathResult
  | _, [], _ => some ⟨false, none, []⟩
  | 0, _ :: _, _ => none
  | fuel + 1, (node, depth, path) :: rest, visited =>
      if node == target then some ⟨true, some depth, path⟩
      else if maxDepth ≤ depth then bfsLoop edges target maxDepth fuel rest visited
      else
        let st := bfsExpand node depth path (successors edges node) rest visited
        bfsLoop edges target maxDepth fuel st.1 st.2

/-- Nodes a BFS state can mention: the source plus every edge target. -/
def bfsNodes (edges : List GEdge) (source : String) : Finset String :=
  insert source (edges.map (fun e => e.tgt)).toFinset

/-- Finite space of reachable (node, depth) states. -/
def bfsSpace (edges : List GEdge) (source : String) (maxDepth : Nat) :
    Finset BfsState :=
  (bfsNodes edges source) ×ˢ Finset.range (maxDepth + 1)

/-- Fuel sufficient for the loop to run to completion (proved below). -/
def bfsFuel (edges : List GEdge) (source : String) (maxDepth : Nat) : Nat :=
  (bfsSpace edges source maxDepth).card + 1

/-- The max-depth clamp of _path_exists: max(1, min(d, 10)). -/
def clampDepth (d : Int) : Nat := (max 1 (min d 10)).toNat

/-- _path_exists: clamp the depth, then run the BFS from the source with
the singleton queue and visited set. -/
def path_exists (edges : List GEdge) (source target : String)
    (max_depth : Int) : PathResult :=
  let md := clampDepth max_depth
  (bfsLoop edges target md (bfsFuel edges source md)
    [(source, 0, [])] [(source, 0)]).getD ⟨false, none, []⟩

/-- The edge list _path_exists reads for a model. -/
def modelEdges (ms : ModelState) : List GEdge :=
  ms.relationships.map (fun r => ⟨r.source_element_id, r.target_element_id, r.type_name⟩)

/-- Did the call succeed. -/
def exceptOk {α : Type} : Except Err α → Bool
  | Except.ok _ => true
  | Except.error _ => false

/-- Did the call fail with a version conflict. -/
def isVersionConflict {α : Type} : Except Err α → Bool
  | Except.error (Err.versionConflict _ _) => true
  | _ => false

/-- The empty store. -/
def emptyStore : Store := ⟨[]⟩

/-- Placeholder state for total unwrapping of lookups in the concrete
scenarios below. -/
def defaultMS : ModelState := ⟨⟨"", "", "", [], 0, 0, 0⟩, [], [], [], [], none⟩

/-- Unwrap a create_model result to the store. -/
def storeOfN (e : Except Err (Nat × Store)) (d : Store) : Store :=
  match e with
  | Except.ok r => r.2
  | Except.error _ => d

/-- Unwrap a stepStore result to the store. -/
def storeOf (e : Except Err Store) (d : Store) : Store :=
  match e with
  | Except.ok s => s
  | Except.error _ => d

/-- Concrete scenario: a model m is created at time 0 (version 1). -/
def scnStore1 : Store := storeOfN (create_model 0 "M" "" [] "m" "alice" emptyStore) emptyStore

/-- Scenario: the tag key status is defined for elements. -/
def scnStore2 : Store := define_attribute "m" TargetType.element "status" "" true scnStore1

/-- Scenario: element e1 is upserted at time 1 (version 2). -/
def scnStore3 : Store :=
  storeOf (stepStore 1 "m"
    (MOp.upsertElement "Business Actor" "E" "e1" [] none none none "alice" "add e1")
    scnStore2) scnStore2

/-- Scenario: tag status=gold is added to e1 at time 2 (version 3, whose
snapshot therefore records the tag). -/
def scnStore4 : Store :=
  storeOf (stepStore 2 "m"
    (MOp.addElementTag "e1" "status" "gold" "alice" "tag e1") scnStore3) scnStore3

/-- Scenario: the model is reverted to version 3 at time 3 (version 4). -/
def scnStore5 : Store :=
  storeOf (stepStore 3 "m" (MOp.revertToVersion 3 none "alice") scnStore4) scnStore4

/-- The model state of m inside a scenario store. -/
def scnMS (st : Store) : ModelState := (findModel st "m").getD defaultMS

/-- The version-3 record of the scenario (with the tagged snapshot). -/
def c3vd : Version :=
  (get_version (scnMS scnStore4) 3).toOption.getD ⟨0, "", "", 0, ⟨defaultMS.meta, [], []⟩⟩

/-- The concrete revert call of the scenario, unwrapped. -/
def c3res : RevertResult × ModelState :=
  (revert_to_version 3 3 none "alice" (scnMS scnStore4)).toOption.getD (⟨"", 0, 0⟩, defaultMS)

/-- Minimal model row for hand-built witness states. -/
def mkMeta (mid : String) (cv : Nat) : ModelMeta := ⟨mid, mid, "", [], 0, 0, cv⟩

/-- Minimal element row for hand-built witness states. -/
def mkElem (i ty : String) : Element := ⟨i, ty, i, [], [], none, none, 0, 0⟩

/-- Element row with a validity window. -/
def mkElemT (i ty : String) (vf vt : Option String) : Element :=
  ⟨i, ty, i, [], [], vf, vt, 0, 0⟩

/-- Minimal relationship row for hand-built witness states. -/
def mkRel (i src tgt : String) : Relationship :=
  ⟨i, "Serving", src, tgt, "", [], [], none, none, 0, 0⟩

/-- Relationship row with a validity window. -/
def mkRelT (i src tgt : String) (vf vt : Option String) : Relationship :=
  ⟨i, "Serving", src, tgt, "", [], [], vf, vt, 0, 0⟩

/-- Witness state for the delete-element cascade: two elements and four
relationships, three of which touch element a. -/
def c5ms : ModelState :=
  ⟨mkMeta "m" 7,
   [mkElem "a" "Business Actor", mkElem "b" "Business Actor"],
   [mkRel "r1" "a" "b", mkRel "r2" "b" "a", mkRel "r3" "a" "a", mkRel "r4" "b" "b"],
   [], [], none⟩

/-- The concrete delete-element call of the C5 witness, unwrapped. -/
def c5res : DeleteElementResult × ModelState :=
  (delete_model_element 8 "a" none "alice" "drop a" c5ms).toOption.getD
    (⟨"", "", 0, 0⟩, defaultMS)

/-- Catalog for the validation examples. -/
def valCat : Catalog := ⟨["Business Actor"], ["Serving"]⟩

/-- Witness state for C6: a single element of unknown type. -/
def c6ms : ModelState := ⟨mkMeta "m" 1, [mkElem "e1" "FooThing"], [], [], [], none⟩

/-- Counterexample state for C7: the relationship has no valid_from but a
valid_to later than the valid_to of its source element. -/
def c7ms : ModelState :=
  ⟨mkMeta "m" 1,
   [mkElemT "e1" "Business Actor" none (some "2024-01-01"), mkElem "e2" "Business Actor"],
   [mkRelT "r1" "e1" "e2" none (some "2025-01-01")],
   [], [], none⟩

/-- Witness state for C7: as c7ms but the relationship also has a
valid_from, and both endpoint windows end before it ends. -/
def c7ms2 : ModelState :=
  ⟨mkMeta "m" 1,
   [mkElemT "e1" "Business Actor" none (some "2024-01-01"),
    mkElemT "e2" "Business Actor" none (some "2024-06-01")],
   [mkRelT "r1" "e1" "e2" (some "2020-01-01") (some "2025-01-01")],
   [], [], none⟩

/-- The cyclic two-edge graph of the C8 example. -/
def c8edges : List GEdge := [⟨"A", "B", "Serving"⟩, ⟨"B", "A", "Serving"⟩]

/-- Witness state for C10: the lock is held by bob. -/
def c10ms : ModelState := ⟨mkMeta "m" 1, [], [], [], [], some ⟨"bob", 5⟩⟩

/-- A one-operation session for the C1 witness. -/
def c1sess : List (Nat × MOp) :=
  [(1, MOp.upsertElement "Business Actor" "E" "e1" [] none none none "alice" "add e1")]

/-- The model state after running the C1 witness session on the freshly
created model. -/
def c1msN : ModelState :=
  match applyOps c1sess (scnMS scnStore1) with
  | Except.ok m => m
  | Except.error _ => defaultMS

theorem createVersion_current (now : Nat) (a m : String) (ms : ModelState) :
    (createVersion now a m ms).2.meta.current_version = ms.meta.current_version + 1 := rfl

theorem createVersion_versionNums (now : Nat) (a m : String) (ms : ModelState) :
    versionNums (createVersion now a m ms).2 =
      versionNums ms ++ [ms.meta.current_version + 1] := by
  simp [createVersion, versionNums]

theorem stepModel_bump (now : Nat) (op : MOp) (ms ms' : ModelState)
    (h : stepModel now op ms = Except.ok ms') :
    ms'.meta.current_version = ms.meta.current_version + 1 ∧
    versionNums ms' = versionNums ms ++ [ms.meta.current_version + 1] := by
  cases op <;>
    (simp only [stepModel, update_model, upsert_model_element, delete_model_element,
       upsert_model_relationship, delete_model_relationship, revert_to_version,
       add_element_tag, remove_element_tag, add_relationship_tag,
       remove_relationship_tag] at h
     repeat' split at h
     all_goals simp only [Except.map] at h
     all_goals first
       | exact Except.noConfusion h
       | (injection h with h
          subst h
          exact ⟨rfl, by simp [createVersion, versionNums]⟩))

theorem natsUpTo_length (n : Nat) : (natsUpTo n).length = n := by
  induction n with
  | zero => rfl
  | succ n ih => simp [natsUpTo, ih]

theorem natsUpTo_mem_le {a n : Nat} (h : a ∈ natsUpTo n) : a ≤ n := by
  induction n with
  | zero => simp [natsUpTo] at h
  | succ n ih =>
      simp only [natsUpTo, List.mem_append, List.mem_singleton] at h
      rcases h with h | h
      · exact Nat.le_succ_of_le (ih h)
      · omega

theorem natsUpTo_pairwise (n : Nat) : (natsUpTo n).Pairwise (· < ·) := by
  induction n with
  | zero => exact List.Pairwise.nil
  | succ n ih =>
      rw [natsUpTo, List.pairwise_append]
      refine ⟨ih, List.pairwise_singleton _ _, ?_⟩
      intro a ha b hb
      simp only [List.mem_singleton] at hb
      subst hb
      exact Nat.lt_succ_of_le (natsUpTo_mem_le ha)

theorem insertVersionDesc_of_lt (x : Version) :
    ∀ l : List Version, (∀ y ∈ l, x.version < y.version) →
      insertVersionDesc x l = l ++ [x] := by
  intro l
  induction l with
  | nil => intro _; rfl
  | cons y ys ih =>
      intro hlt
      have hy : x.version < y.version := hlt y (List.mem_cons_self y ys)
      rw [insertVersionDesc, if_neg (by omega)]
      rw [ih (fun z hz => hlt z (List.mem_cons_of_mem y hz))]
      rfl

theorem sortVersionsDesc_of_ascending :
    ∀ l : List Version, l.Pairwise (fun a b => a.version < b.version) →
      sortVersionsDesc l = l.reverse := by
  intro l
  induction l with
  | nil => intro _; rfl
  | cons x xs ih =>
      intro hp
      rw [List.pairwise_cons] at hp
      rw [sortVersionsDesc, ih hp.2, insertVersionDesc_of_lt]
      · rw [List.reverse_cons]
      · intro y hy
        exact hp.1 y (List.mem_reverse.mp hy)

theorem list_versions_complete (ms : ModelState) (lim : Int)
    (inv : versionNums ms = natsUpTo ms.meta.current_version)
    (h1 : (ms.meta.current_version : Int) ≤ lim) (h2 : lim ≤ 1000) :
    (list_versions ms lim).map (fun v => v.version) =
      (natsUpTo ms.meta.current_version).reverse := by
  have hpair : ms.versions.Pairwise (fun a b => a.version < b.version) := by
    have := natsUpTo_pairwise ms.meta.current_version
    rw [← inv] at this
    exact (List.pairwise_map.mp this)
  have hsort := sortVersionsDesc_of_ascending ms.versions hpair
  have hlen : ms.versions.length = ms.meta.current_version := by
    have := congrArg List.length inv
    simpa [versionNums, natsUpTo_length] using this
  have hlim : ms.versions.length ≤ (max 1 (min lim 1000)).toNat := by
    rw [hlen]
    omega
  simp only [list_versions, hsort]
  rw [List.take_of_length_le (by simpa using hlim)]
  rw [← inv]
  simp [versionNums]

theorem applyOps_invariant :
    ∀ (sess : List (Nat × MOp)) (ms ms' : ModelState),
      applyOps sess ms = Except.ok ms' →
      versionNums ms = natsUpTo ms.meta.current_version →
      versionNums ms' = natsUpTo ms'.meta.current_version ∧
      ms'.meta.current_version = ms.meta.current_version + sess.length := by
  intro sess
  induction sess with
  | nil =>
      intro ms ms' h inv
      simp only [applyOps] at h
      injection h with h
      subst h
      exact ⟨inv, rfl⟩
  | cons p rest ih =>
      intro ms ms' h inv
      simp only [applyOps] at h
      cases hstep : stepModel p.1 p.2 ms with
      | error e => rw [hstep] at h; exact Except.noConfusion h
      | ok ms₁ =>
          rw [hstep] at h
          obtain ⟨hc, hv⟩ := stepModel_bump p.1 p.2 ms ms₁ hstep
          have inv₁ : versionNums ms₁ = natsUpTo ms₁.meta.current_version := by
            rw [hv, inv, hc]
            rfl
          obtain ⟨i1, i2⟩ := ih ms₁ ms' h inv₁
          refine ⟨i1, ?_⟩
          rw [i2, hc]
          simp [List.length_cons]
          omega

theorem create_model_initial (now : Nat) (name descr : String) (attrs : Attrs)
    (mid author : String) (st : Store) (v : Nat) (st' : Store)
    (h : create_model now name descr attrs mid author st = Except.ok (v, st')) :
    v = 1 ∧ ∀ ms₀, findModel st' mid = some ms₀ →
      versionNums ms₀ = natsUpTo ms₀.meta.current_version ∧
      ms₀.meta.current_version = 1 := by
  simp only [create_model] at h
  split at h
  · exact Except.noConfusion h
  · injection h with h
    injection h with hv hst
    subst hv
    refine ⟨rfl, ?_⟩
    intro ms₀ hfind
    next hnone =>
    have hnone' : findModel st mid = none := by
      cases hfm : findModel st mid with
      | none => rfl
      | some x => rw [hfm] at hnone; simp at hnone
    rw [← hst] at hfind
    simp only [findModel] at hfind hnone'
    rw [List.find?_append, hnone'] at hfind
    simp only [Option.none_orElse, List.find?_cons, List.find?_nil] at hfind
    split at hfind
    · injection hfind with hfind
      subst hfind
      constructor <;> rfl
    · exact Option.noConfusion hfind

/-- C1: version numbers of a model are contiguous starting at 1 (the list
of stored version numbers is exactly 1..current_version, so
current_version is the highest stored number); every successful mutating
operation appends exactly one version numbered current_version + 1 and
advances current_version by exactly 1; creation stores version 1; and
after a session of N successful mutating operations on a freshly created
model the store holds exactly N + 1 versions numbered 1..N + 1,
current_version is N + 1, and list_versions (with a limit large enough)
returns them all, newest first. -/
theorem C1_version_contiguity :
    (∀ (now : Nat) (op : MOp) (ms ms' : ModelState),
       stepModel now op ms = Except.ok ms' →
       ms'.meta.current_version = ms.meta.current_version + 1 ∧
       versionNums ms' = versionNums ms ++ [ms.meta.current_version + 1]) ∧
    (∀ (now : Nat) (name descr : String) (attrs : Attrs) (mid author : String)
       (st : Store) (v : Nat) (st' : Store),
       create_model now name descr attrs mid author st = Except.ok (v, st') →
       v = 1 ∧ ∀ ms₀, findModel st' mid = some ms₀ →
         versionNums ms₀ = natsUpTo 1 ∧ ms₀.meta.current_version = 1) ∧
    (∀ (now : Nat) (name descr : String) (attrs : Attrs) (mid author : String)
       (st st' : Store) (v : Nat) (ms₀ msN : ModelState) (sess : List (Nat × MOp)),
       create_model now name descr attrs mid author st = Except.ok (v, st') →
       findModel st' mid = some ms₀ →
       applyOps sess ms₀ = Except.ok msN →
       msN.meta.current_version = sess.length + 1 ∧
       versionNums msN = natsUpTo (sess.length + 1) ∧
       ∀ lim : Int, ((sess.length + 1 : Nat) : Int) ≤ lim → lim ≤ 1000 →
         (list_versions msN lim).map (fun vm => vm.version) =
           (natsUpTo (sess.length + 1)).reverse) := by
  refine ⟨stepModel_bump, ?_, ?_⟩
  · intro now name descr attrs mid author st v st' h
    obtain ⟨hv, hms⟩ := create_model_initial now name descr attrs mid author st v st' h
    refine ⟨hv, fun ms₀ hfind => ?_⟩
    obtain ⟨h1, h2⟩ := hms ms₀ hfind
    rw [h2] at h1
    exact ⟨h1, h2⟩
  · intro now name descr attrs mid author st st' v ms₀ msN sess hc hfind happly
    obtain ⟨_, hms⟩ := create_model_initial now name descr attrs mid author st v st' hc
    obtain ⟨inv₀, hcv₀⟩ := hms ms₀ hfind
    obtain ⟨invN, hcvN⟩ := applyOps_invariant sess ms₀ msN happly inv₀
    rw [hcv₀] at hcvN
    have hcvN' : msN.meta.current_version = sess.length + 1 := by omega
    refine ⟨hcvN', ?_, ?_⟩
    · rw [invN, hcvN']
    · intro lim hl1 hl2
      have := list_versions_complete msN lim invN (by rw [hcvN']; exact_mod_cast hl1) hl2
      rw [hcvN'] at this
      exact this

/-- Witness for C1: the session of one element upsert on a freshly
created model ends at current_version 2 with versions 1 and 2, listed
newest first. -/
theorem C1_version_contiguity_witness :
    create_model 0 "M" "" [] "m" "alice" emptyStore = Except.ok (1, scnStore1) ∧
    findModel scnStore1 "m" = some (scnMS scnStore1) ∧
    applyOps c1sess (scnMS scnStore1) = Except.ok c1msN ∧
    c1msN.meta.current_version = 2 ∧
    versionNums c1msN = natsUpTo 2 ∧
    (list_versions c1msN 100).map (fun vm => vm.version) = (natsUpTo 2).reverse := by
  have h1 : create_model 0 "M" "" [] "m" "alice" emptyStore = Except.ok (1, scnStore1) := rfl
  have h2 : findModel scnStore1 "m" = some (scnMS scnStore1) := rfl
  have h3 : applyOps c1sess (scnMS scnStore1) = Except.ok c1msN := rfl
  obtain ⟨hcv, hvn, hlist⟩ :=
    C1_version_contiguity.2.2 0 "M" "" [] "m" "alice" emptyStore scnStore1 1
      (scnMS scnStore1) c1msN c1sess h1 h2 h3
  exact ⟨h1, h2, h3, hcv, hvn, hlist 100 (by simp [c1sess]) (by norm_num)⟩

/-- C2 (amended): among the section-4.1 mutating operations, exactly
update model, upsert and delete element, upsert and delete relationship
and revert accept an optional expected_version; for those, a supplied
expected_version differing from the current stored version makes the
operation fail with a version conflict carrying both the expected and the
actual value, with no effect on the store.  Model creation and deletion
and the four tag operations take no expected_version at all (see the
counterexample). -/
theorem C2_version_conflict :
    (∀ (now : Nat) (op : MOp) (ms : ModelState) (ev : Nat),
       expectedOf op = some (some ev) → ev ≠ ms.meta.current_version →
       stepModel now op ms = Except.error (Err.versionConflict ev ms.meta.current_version)) ∧
    (∀ (now : Nat) (op : MOp) (st : Store) (mid : String) (ms : ModelState) (ev : Nat),
       findModel st mid = some ms → expectedOf op = some (some ev) →
       ev ≠ ms.meta.current_version →
       stepStore now mid op st = Except.error (Err.versionConflict ev ms.meta.current_version)) := by
  have part1 : ∀ (now : Nat) (op : MOp) (ms : ModelState) (ev : Nat),
      expectedOf op = some (some ev) → ev ≠ ms.meta.current_version →
      stepModel now op ms = Except.error (Err.versionConflict ev ms.meta.current_version) := by
    intro now op ms ev hop hne
    cases op <;> simp only [expectedOf] at hop <;>
      first
        | exact Option.noConfusion hop
        | (rw [Option.some.injEq] at hop
           subst hop
           simp [stepModel, update_model, upsert_model_element, delete_model_element,
             upsert_model_relationship, delete_model_relationship, revert_to_version,
             ensureExpectedVersion, hne, Except.map])
  refine ⟨part1, ?_⟩
  intro now op st mid ms ev hfind hop hne
  simp only [stepStore, hfind]
  rw [part1 now op ms ev hop hne]
  rfl

/-- Counterexample to C2 as stated: the tag-add operation of the contract
carries no expected_version anywhere in its code path, so with the model
at current version 2 a caller holding the stale version 1 cannot be
rejected; the add commits unconditionally and bumps the version to 3,
and no version conflict is ever produced. -/
theorem C2_counterexample :
    (findModel scnStore3 "m").map (fun ms => ms.meta.current_version) = some 2 ∧
    isVersionConflict
      (stepStore 5 "m" (MOp.addElementTag "e1" "status" "x" "mallory" "t") scnStore3) = false ∧
    exceptOk
      (stepStore 5 "m" (MOp.addElementTag "e1" "status" "x" "mallory" "t") scnStore3) = true ∧
    (findModel
      (storeOf (stepStore 5 "m" (MOp.addElementTag "e1" "status" "x" "mallory" "t") scnStore3)
        scnStore3) "m").map (fun ms => ms.meta.current_version) = some 3 :=
  ⟨rfl, rfl, rfl, rfl⟩

/-- Witness for C2: an update with expected version 1 against the model
at version 2 fails with a conflict carrying 1 and 2. -/
theorem C2_version_conflict_witness :
    expectedOf (MOp.updateModel none none none (some 1) "alice" "up") = some (some 1) ∧
    (1 : Nat) ≠ (scnMS scnStore3).meta.current_version ∧
    stepModel 9 (MOp.updateModel none none none (some 1) "alice" "up") (scnMS scnStore3) =
      Except.error (Err.versionConflict 1 (scnMS scnStore3).meta.current_version) :=
  ⟨rfl, by decide,
   C2_version_conflict.1 9 (MOp.updateModel none none none (some 1) "alice" "up")
     (scnMS scnStore3) 1 rfl (by decide)⟩

/-- C3 (amended): reverting to a stored version k wipes the current
elements and relationships and re-inserts the snapshot rows of version k,
restoring id, type, name, attributes and the validity window of every
element and relationship and the model name, description and attributes,
and then appends exactly one new version numbered current_version + 1, so
history is append-only; however the re-inserted rows do not carry the
snapshot tag maps (they are reset to empty) nor its timestamps. -/
theorem C3_revert_semantics (now k : Nat) (ev : Option Nat) (author : String)
    (ms : ModelState) (vd : Version) (res : RevertResult) (ms' : ModelState)
    (hv : get_version ms k = Except.ok vd)
    (h : revert_to_version now k ev author ms = Except.ok (res, ms')) :
    ms'.elements = vd.snapshot.elements.map (restoreElement now) ∧
    ms'.relationships = vd.snapshot.relationships.map (restoreRelationship now) ∧
    ms'.elements.map (fun x => (x.id, x.type_name, x.name, x.attributes, x.valid_from, x.valid_to)) =
      vd.snapshot.elements.map (fun x => (x.id, x.type_name, x.name, x.attributes, x.valid_from, x.valid_to)) ∧
    ms'.elements.map (fun x => x.tags) = vd.snapshot.elements.map (fun _ => ([] : Attrs)) ∧
    ms'.meta.name = vd.snapshot.model.name ∧
    ms'.meta.description = vd.snapshot.model.description ∧
    ms'.meta.attributes = vd.snapshot.model.attributes ∧
    ms'.meta.current_version = ms.meta.current_version + 1 ∧
    versionNums ms' = versionNums ms ++ [ms.meta.current_version + 1] ∧
    res.from_version = k ∧ res.version = ms.meta.current_version + 1 := by
  simp only [revert_to_version] at h
  split at h
  · exact Except.noConfusion h
  · rw [hv] at h
    simp only at h
    injection h with h
    injection h with hres hms
    subst hres
    subst hms
    refine ⟨rfl, rfl, ?_, ?_, rfl, rfl, rfl, rfl, ?_, rfl, rfl⟩
    · show List.map _ (vd.snapshot.elements.map (restoreElement now)) = _
      rw [List.map_map]
      simp [Function.comp, restoreElement]
    · show List.map _ (vd.snapshot.elements.map (restoreElement now)) = _
      rw [List.map_map]
      have hc : ((fun x => x.tags) ∘ restoreElement now) = (fun _ => ([] : Attrs)) := by
        funext x
        rfl
      rw [hc]
    · simp [createVersion, versionNums]

/-- Witness for C3: the concrete revert of the scenario restores the
element content of the version-3 snapshot minus its tag map. -/
theorem C3_revert_semantics_witness :
    get_version (scnMS scnStore4) 3 = Except.ok c3vd ∧
    revert_to_version 3 3 none "alice" (scnMS scnStore4) = Except.ok c3res ∧
    c3res.2.elements = c3vd.snapshot.elements.map (restoreElement 3) ∧
    c3res.2.meta.current_version = (scnMS scnStore4).meta.current_version + 1 := by
  have h1 : get_version (scnMS scnStore4) 3 = Except.ok c3vd := rfl
  have h2 : revert_to_version 3 3 none "alice" (scnMS scnStore4) = Except.ok c3res := rfl
  obtain ⟨e1, _, _, _, _, _, _, hcv, _, _, _⟩ :=
    C3_revert_semantics 3 3 none "alice" (scnMS scnStore4) c3vd c3res.1 c3res.2 h1 h2
  exact ⟨h1, h2, e1, hcv⟩

/-- Counterexample to C3 as stated: in the scenario, the version-3
snapshot records element e1 with tag status=gold, but after reverting to
version 3 the current element row has an empty tag map, so the model
content is not equal to the snapshot content. -/
theorem C3_counterexample :
    (get_version (scnMS scnStore4) 3).toOption.map
      (fun vv => vv.snapshot.elements.map (fun e => e.tags)) = some [[("status", "gold")]] ∧
    (scnMS scnStore5).elements.map (fun e => e.tags) = [[]] ∧
    (scnMS scnStore5).meta.current_version = 4 ∧
    (scnMS scnStore5).elements ≠ c3vd.snapshot.elements :=
  ⟨rfl, rfl, rfl, by decide⟩

/-- C4 (amended): every mutating operation on an existing model fails
with NotFound and changes nothing when the target model does not exist,
with two exceptions visible in the code: createModel requires the id to
be fresh instead, and deleteModel performs a bare DELETE that succeeds
with a deleted count of 0 and an unchanged store when the model is
absent (see the counterexample). -/
theorem C4_not_found :
    (∀ (now : Nat) (mid : String) (op : MOp) (st : Store),
       findModel st mid = none →
       stepStore now mid op st = Except.error (Err.notFound mid)) ∧
    (∀ (mid : String) (st : Store),
       findModel st mid = none → delete_model mid st = (0, st)) := by
  constructor
  · intro now mid op st hnone
    simp only [stepStore, hnone]
  · intro mid st hnone
    simp only [findModel, List.find?_eq_none] at hnone
    have h1 : st.models.filter (fun ms => ms.meta.id == mid) = [] := by
      rw [List.filter_eq_nil_iff]
      intro a ha
      simpa using hnone a ha
    have h2 : st.models.filter (fun ms => ms.meta.id != mid) = st.models := by
      rw [List.filter_eq_self]
      intro a ha
      simpa using hnone a ha
    simp only [delete_model, h1, h2]
    rfl

/-- Counterexample to C4 as stated: deleting a model id that does not
exist does not fail with NotFound; it succeeds, reports 0 deleted rows
and leaves the store unchanged (delete_model does not even have an error
channel). -/
theorem C4_counterexample :
    delete_model "nope" scnStore1 = (0, scnStore1) ∧
    delete_model "m" emptyStore = (0, emptyStore) := by
  constructor <;> rfl

/-- Witness for C4: any operation against a missing model id fails with
NotFound, shown on the scenario store. -/
theorem C4_not_found_witness :
    findModel scnStore1 "ghost" = none ∧
    stepStore 7 "ghost" (MOp.deleteElement "e1" none "alice" "d") scnStore1 =
      Except.error (Err.notFound "ghost") ∧
    delete_model "ghost" scnStore1 = (0, scnStore1) :=
  ⟨rfl,
   C4_not_found.1 7 "ghost" (MOp.deleteElement "e1" none "alice" "d") scnStore1 rfl,
   C4_not_found.2 "ghost" scnStore1 rfl⟩

/-- C5: deleting an existing element deletes exactly the relationships
that reference it as source or target and no others, reports that count
as relationships_deleted, removes the element, and creates exactly one
new version. -/
theorem C5_delete_element_cascade (now : Nat) (eid : String) (ev : Option Nat)
    (author message : String) (ms : ModelState)
    (res : DeleteElementResult) (ms' : ModelState)
    (h : delete_model_element now eid ev author message ms = Except.ok (res, ms')) :
    res.relationships_deleted = (ms.relationships.filter (refersTo eid)).length ∧
    ms'.relationships = ms.relationships.filter (fun r => !(refersTo eid r)) ∧
    (∀ r, r ∈ ms'.relationships ↔ (r ∈ ms.relationships ∧ refersTo eid r = false)) ∧
    ms'.elements = ms.elements.filter (fun e => e.id != eid) ∧
    res.version = ms.meta.current_version + 1 ∧
    ms'.meta.current_version = ms.meta.current_version + 1 ∧
    versionNums ms' = versionNums ms ++ [ms.meta.current_version + 1] := by
  simp only [delete_model_element] at h
  split at h
  · exact Except.noConfusion h
  · split at h
    · exact Except.noConfusion h
    · injection h with h
      injection h with hres hms
      subst hres
      subst hms
      refine ⟨rfl, rfl, ?_, rfl, rfl, rfl, ?_⟩
      · intro r
        show r ∈ ms.relationships.filter (fun r => !(refersTo eid r)) ↔ _
        simp [List.mem_filter]
      · simp [createVersion, versionNums]

/-- Witness for C5: deleting element a from the two-element four-edge
state removes exactly the three relationships touching a and reports 3. -/
theorem C5_delete_element_cascade_witness :
    delete_model_element 8 "a" none "alice" "drop a" c5ms = Except.ok c5res ∧
    c5res.1.relationships_deleted = 3 ∧
    (c5ms.relationships.filter (refersTo "a")).length = 3 ∧
    c5res.2.relationships = [mkRel "r4" "b" "b"] ∧
    c5res.1.version = 8 := by
  have h : delete_model_element 8 "a" none "alice" "drop a" c5ms = Except.ok c5res := rfl
  obtain ⟨h1, h2, _, _, h5, _, _⟩ :=
    C5_delete_element_cascade 8 "a" none "alice" "drop a" c5ms c5res.1 c5res.2 h
  exact ⟨h, by rw [h1]; rfl, rfl, by rw [h2]; rfl, by rw [h5]; rfl⟩

theorem mem_if_singleton {c : Prop} [Decidable c] {x i : Issue}
    (h : i ∈ (if c then [x] else [])) : i = x := by
  split at h
  · simpa using h
  · simp at h

theorem elemIssuesOf_code_mem (knownE : List String) (e : Element) (i : Issue)
    (hi : i ∈ elemIssuesOf knownE e) :
    i.code ∈ ["UNKNOWN_ELEMENT_TYPE", "INVALID_ELEMENT_TIME_RANGE"] := by
  simp only [elemIssuesOf, List.mem_append] at hi
  rcases hi with h | h <;>
    (have hx := mem_if_singleton h; subst hx; simp)

theorem relIssuesOf_code_mem (knownR : List String) (ids : List String)
    (etime : String → Option (Option String × Option String)) (r : Relationship)
    (i : Issue) (hi : i ∈ relIssuesOf knownR ids etime r) :
    i.code ∈ ["UNKNOWN_RELATIONSHIP_TYPE", "MISSING_REL_ENDPOINT",
      "INVALID_REL_TIME_RANGE", "REL_BEFORE_SOURCE", "REL_BEFORE_TARGET",
      "REL_AFTER_SOURCE", "REL_AFTER_TARGET"] := by
  simp only [relIssuesOf, List.mem_append] at hi
  rcases hi with ((h | h) | h) | h
  · have hx := mem_if_singleton h; subst hx; simp
  · have hx := mem_if_singleton h; subst hx; simp
  · have hx := mem_if_singleton h; subst hx; simp
  · cases hsrc : etime r.source_element_id with
    | none => rw [hsrc] at h; simp at h
    | some ps =>
        cases ps with
        | mk sf sto =>
            rw [hsrc] at h
            cases htgt : etime r.target_element_id with
            | none => rw [htgt] at h; simp at h
            | some pt =>
                cases pt with
                | mk tf tto =>
                    rw [htgt] at h
                    simp only at h
                    split at h
                    · simp only [List.mem_append] at h
                      rcases h with ((h | h) | h) | h <;>
                        (have hx := mem_if_singleton h; subst hx; simp)
                    · simp at h

theorem relIssuesOf_code_mem_no_vf (knownR : List String) (ids : List String)
    (etime : String → Option (Option String × Option String)) (r : Relationship)
    (hvf : tval r.valid_from = false) (i : Issue) (hi : i ∈ relIssuesOf knownR ids etime r) :
    i.code ∈ ["UNKNOWN_RELATIONSHIP_TYPE", "MISSING_REL_ENDPOINT",
      "INVALID_REL_TIME_RANGE"] := by
  simp only [relIssuesOf, List.mem_append] at hi
  rcases hi with ((h | h) | h) | h
  · have hx := mem_if_singleton h; subst hx; simp
  · have hx := mem_if_singleton h; subst hx; simp
  · have hx := mem_if_singleton h; subst hx; simp
  · cases hsrc : etime r.source_element_id with
    | none => rw [hsrc] at h; simp at h
    | some ps =>
        cases ps with
        | mk sf sto =>
            rw [hsrc] at h
            cases htgt : etime r.target_element_id with
            | none => rw [htgt] at h; simp at h
            | some pt =>
                cases pt with
                | mk tf tto =>
                    rw [htgt] at h
                    simp only [hvf] at h
                    simp at h

theorem elemIssues_unknown_count (knownE : List String) :
    ∀ elems : List Element,
      (((elems.map (elemIssuesOf knownE)).flatten).filter
        (fun i => i.severity == "error" && i.code == "UNKNOWN_ELEMENT_TYPE")).length =
      (elems.filter (fun e => !(knownE.contains (lowerStr e.type_name)))).length := by
  have key : ∀ e : Element,
      ((elemIssuesOf knownE e).filter
        (fun i => i.severity == "error" && i.code == "UNKNOWN_ELEMENT_TYPE")).length =
      if !(knownE.contains (lowerStr e.type_name)) then 1 else 0 := by
    intro e
    simp only [elemIssuesOf, List.filter_append, List.length_append]
    by_cases h1 : lowerStr e.type_name ∈ knownE <;>
      by_cases h2 : (tval e.valid_from && tval e.valid_to &&
          strGtB (ostr e.valid_from) (ostr e.valid_to)) = true <;>
        simp [h1, h2]
  intro elems
  induction elems with
  | nil => rfl
  | cons e t ih =>
      rw [show ((e :: t).map (elemIssuesOf knownE)).flatten =
            elemIssuesOf knownE e ++ (t.map (elemIssuesOf knownE)).flatten from rfl,
          List.filter_append, List.length_append, key e, ih, List.filter_cons]
      by_cases h1 : lowerStr e.type_name ∈ knownE <;>
        (simp [h1]; try omega)

theorem relIssues_no_unknown_elem (knownR : List String) (ids : List String)
    (etime : String → Option (Option String × Option String)) :
    ∀ rels : List Relationship,
      (((rels.map (relIssuesOf knownR ids etime)).flatten).filter
        (fun i => i.severity == "error" && i.code == "UNKNOWN_ELEMENT_TYPE")) = [] := by
  intro rels
  rw [List.filter_eq_nil_iff]
  intro i hi
  rw [List.mem_flatten] at hi
  obtain ⟨l, hl, hil⟩ := hi
  rw [List.mem_map] at hl
  obtain ⟨r, _, rfl⟩ := hl
  have hc := relIssuesOf_code_mem knownR ids etime r i hil
  simp only [List.mem_cons, List.mem_singleton] at hc
  rcases hc with h | h | h | h | h | h | h | h <;> first
    | exact absurd h (List.not_mem_nil _)
    | simp [h]

/-- C6: a model that contains exactly one element whose type name does
not case-insensitively match any catalog element type produces exactly
one error-severity issue with code UNKNOWN_ELEMENT_TYPE, and in general
a validation result is valid precisely when the number of error-severity
issues is zero (warnings never affect validity). -/
theorem C6_unknown_type :
    (∀ (cat : Catalog) (ms : ModelState),
       (ms.elements.filter (fun e =>
         !((cat.element_types.map lowerStr).contains (lowerStr e.type_name)))).length = 1 →
       ((validate_model cat ms).issues.filter
         (fun i => i.severity == "error" && i.code == "UNKNOWN_ELEMENT_TYPE")).length = 1) ∧
    (∀ (cat : Catalog) (ms : ModelState),
       ((validate_model cat ms).is_valid = true ↔
         ((validate_model cat ms).issues.filter (fun i => i.severity == "error")).length = 0)) := by
  constructor
  · intro cat ms h1
    simp only [validate_model, List.filter_append, List.length_append]
    rw [elemIssues_unknown_count, relIssues_no_unknown_elem]
    simpa using h1
  · intro cat ms
    simp [validate_model]

/-- Witness for C6: one element of the unknown type FooThing against the
catalog yields exactly one UNKNOWN_ELEMENT_TYPE error and an invalid
model. -/
theorem C6_unknown_type_witness :
    (c6ms.elements.filter (fun e =>
      !((valCat.element_types.map lowerStr).contains (lowerStr e.type_name)))).length = 1 ∧
    ((validate_model valCat c6ms).issues.filter
      (fun i => i.severity == "error" && i.code == "UNKNOWN_ELEMENT_TYPE")).length = 1 ∧
    (validate_model valCat c6ms).is_valid = false :=
  ⟨by decide, C6_unknown_type.1 valCat c6ms (by decide), by decide⟩

set_option maxHeartbeats 1000000 in
/-- C7 (amended): the end-after-endpoint warnings fire per endpoint and
independently (both can fire for one relationship), but only under the
combined guard of the source: both endpoints must be elements of the
model AND the valid_from of the relationship must be non-null; when the
valid_from of a relationship is null, no REL_AFTER_SOURCE or
REL_AFTER_TARGET warning is ever emitted for it, even with all the
valid_to fields set (see the counterexample). -/
theorem C7_rel_after_end_warnings :
    (∀ (cat : Catalog) (ms : ModelState) (r : Relationship) (sf sto : Option String),
       r ∈ ms.relationships →
       elemTimeOf ms r.source_element_id = some (sf, sto) →
       (elemTimeOf ms r.target_element_id).isSome = true →
       tval r.valid_from = true →
       tval r.valid_to = true → tval sto = true →
       strGtB (ostr r.valid_to) (ostr sto) = true →
       Issue.mk "warning" "REL_AFTER_SOURCE" r.id ∈ (validate_model cat ms).issues) ∧
    (∀ (cat : Catalog) (ms : ModelState) (r : Relationship) (tf tto : Option String),
       r ∈ ms.relationships →
       (elemTimeOf ms r.source_element_id).isSome = true →
       elemTimeOf ms r.target_element_id = some (tf, tto) →
       tval r.valid_from = true →
       tval r.valid_to = true → tval tto = true →
       strGtB (ostr r.valid_to) (ostr tto) = true →
       Issue.mk "warning" "REL_AFTER_TARGET" r.id ∈ (validate_model cat ms).issues) ∧
    (∀ (cat : Catalog) (ms : ModelState),
       (∀ r ∈ ms.relationships, tval r.valid_from = false) →
       (validate_model cat ms).issues.filter
         (fun i => i.code == "REL_AFTER_SOURCE" || i.code == "REL_AFTER_TARGET") = []) := by
  refine ⟨?_, ?_, ?_⟩
  · intro cat ms r sf sto hr hsrc htgt hvf hvt hsto hgt
    simp only [validate_model, List.mem_append]
    right
    rw [List.mem_flatten]
    refine ⟨relIssuesOf (cat.relationship_types.map lowerStr)
      (ms.elements.map (fun e => e.id)) (elemTimeOf ms) r,
      List.mem_map_of_mem _ hr, ?_⟩
    obtain ⟨⟨tf, tto⟩, htgt'⟩ := Option.isSome_iff_exists.mp htgt
    simp only [relIssuesOf, hsrc, htgt', hvf, if_true, List.mem_append]
    right
    simp [hvt, hsto, hgt]
  · intro cat ms r tf tto hr hsrc htgt hvf hvt htto hgt
    simp only [validate_model, List.mem_append]
    right
    rw [List.mem_flatten]
    refine ⟨relIssuesOf (cat.relationship_types.map lowerStr)
      (ms.elements.map (fun e => e.id)) (elemTimeOf ms) r,
      List.mem_map_of_mem _ hr, ?_⟩
    obtain ⟨⟨sf, sto⟩, hsrc'⟩ := Option.isSome_iff_exists.mp hsrc
    simp only [relIssuesOf, hsrc', htgt, hvf, if_true, List.mem_append]
    right
    simp [hvt, htto, hgt]
  · intro cat ms hall
    rw [List.filter_eq_nil_iff]
    intro i hi
    simp only [validate_model, List.mem_append] at hi
    rcases hi with hi | hi
    · rw [List.mem_flatten] at hi
      obtain ⟨l, hl, hil⟩ := hi
      rw [List.mem_map] at hl
      obtain ⟨e, _, rfl⟩ := hl
      have hc := elemIssuesOf_code_mem _ e i hil
      simp only [List.mem_cons, List.mem_singleton] at hc
      rcases hc with h | h | h <;> first
        | exact absurd h (List.not_mem_nil _)
        | simp [h]
    · rw [List.mem_flatten] at hi
      obtain ⟨l, hl, hil⟩ := hi
      rw [List.mem_map] at hl
      obtain ⟨r, hrmem, rfl⟩ := hl
      have hc := relIssuesOf_code_mem_no_vf _ _ _ r (hall r hrmem) i hil
      simp only [List.mem_cons, List.mem_singleton] at hc
      rcases hc with h | h | h | h <;> first
        | exact absurd h (List.not_mem_nil _)
        | simp [h]

/-- Counterexample to C7 as stated: this relationship has a non-null
valid_to later than the non-null valid_to of its source element, yet
because its valid_from is null the code emits no warning at all (the
whole temporal-warning block is guarded by the relationship valid_from),
while the claim says the check depends only on the two valid_to fields. -/
theorem C7_counterexample :
    c7ms.relationships.map (fun r => (r.valid_from, r.valid_to)) =
      [(none, some "2025-01-01")] ∧
    elemTimeOf c7ms "e1" = some (none, some "2024-01-01") ∧
    c7ms.relationships.map (fun r => r.source_element_id) = ["e1"] ∧
    strGtB "2025-01-01" "2024-01-01" = true ∧
    (validate_model valCat c7ms).issues = [] :=
  ⟨rfl, rfl, rfl, by decide, by decide⟩

/-- Witness for C7: with valid_from set on the relationship, both the
source and the target end-after warnings fire independently for the same
relationship. -/
theorem C7_rel_after_end_warnings_witness :
    mkRelT "r1" "e1" "e2" (some "2020-01-01") (some "2025-01-01") ∈ c7ms2.relationships ∧
    Issue.mk "warning" "REL_AFTER_SOURCE" "r1" ∈ (validate_model valCat c7ms2).issues ∧
    Issue.mk "warning" "REL_AFTER_TARGET" "r1" ∈ (validate_model valCat c7ms2).issues := by
  refine ⟨List.mem_singleton.mpr rfl, ?_, ?_⟩
  · exact C7_rel_after_end_warnings.1 valCat c7ms2
      (mkRelT "r1" "e1" "e2" (some "2020-01-01") (some "2025-01-01"))
      none (some "2024-01-01") (List.mem_singleton.mpr rfl) rfl rfl rfl rfl rfl (by decide)
  · exact C7_rel_after_end_warnings.2.1 valCat c7ms2
      (mkRelT "r1" "e1" "e2" (some "2020-01-01") (some "2025-01-01"))
      none (some "2024-06-01") (List.mem_singleton.mpr rfl) rfl rfl rfl rfl rfl (by decide)

theorem stContains_iff (l : List BfsState) (s : BfsState) :
    stContains l s = true ↔ s ∈ l := by
  constructor
  · intro h
    rw [stContains, List.any_eq_true] at h
    obtain ⟨t, ht, hts⟩ := h
    simp only [Bool.and_eq_true, beq_iff_eq] at hts
    obtain ⟨h1, h2⟩ := hts
    have : t = s := Prod.ext h1 h2
    rw [← this]
    exact ht
  · intro h
    rw [stContains, List.any_eq_true]
    exact ⟨s, h, by simp⟩

theorem bfsExpand_invariant (space : Finset BfsState) (node : String)
    (depth : Nat) (path : List PStep) :
    ∀ (succ : List (String × String)) (queue : List QEntry) (visited : List BfsState),
      visited.Nodup → (∀ s ∈ visited, s ∈ space) →
      (∀ nt ∈ succ, ((nt.1 : String), depth + 1) ∈ space) →
      ((bfsExpand node depth path succ queue visited).2.Nodup ∧
       (∀ s ∈ (bfsExpand node depth path succ queue visited).2, s ∈ space) ∧
       (bfsExpand node depth path succ queue visited).1.length +
         (space.card - (bfsExpand node depth path succ queue visited).2.length) ≤
         queue.length + (space.card - visited.length)) := by
  intro succ
  induction succ with
  | nil =>
      intro queue visited h1 h2 _
      exact ⟨h1, h2, Nat.le_refl _⟩
  | cons nt rest ih =>
      intro queue visited h1 h2 h3
      by_cases hc : stContains visited (nt.1, depth + 1) = true
      · have heq : bfsExpand node depth path (nt :: rest) queue visited =
            bfsExpand node depth path rest queue visited := by
          simp [bfsExpand, List.foldl_cons, hc]
        rw [heq]
        exact ih queue visited h1 h2 (fun x hx => h3 x (List.mem_cons_of_mem _ hx))
      · have heq : bfsExpand node depth path (nt :: rest) queue visited =
            bfsExpand node depth path rest
              (queue ++ [(nt.1, depth + 1, path ++ [⟨node, nt.1, nt.2⟩])])
              (visited ++ [(nt.1, depth + 1)]) := by
          simp [bfsExpand, List.foldl_cons, hc]
        rw [heq]
        have hnotmem : (nt.1, depth + 1) ∉ visited := fun hmem =>
          hc ((stContains_iff _ _).mpr hmem)
        have h1' : (visited ++ [(nt.1, depth + 1)]).Nodup := by
          rw [List.nodup_append]
          exact ⟨h1, List.nodup_singleton _, by simpa using hnotmem⟩
        have h2' : ∀ s ∈ visited ++ [(nt.1, depth + 1)], s ∈ space := by
          intro s hs
          rcases List.mem_append.mp hs with hs | hs
          · exact h2 s hs
          · rw [List.mem_singleton.mp hs]
            exact h3 nt (List.mem_cons_self _ _)
        have hrec := ih
          (queue ++ [(nt.1, depth + 1, path ++ [⟨node, nt.1, nt.2⟩])])
          (visited ++ [(nt.1, depth + 1)]) h1' h2'
          (fun x hx => h3 x (List.mem_cons_of_mem _ hx))
        refine ⟨hrec.1, hrec.2.1, le_trans hrec.2.2 ?_⟩
        have hcard : visited.length + 1 ≤ space.card := by
          have hsub : (visited ++ [(nt.1, depth + 1)]).toFinset ⊆ space := by
            intro x hx
            exact h2' x (List.mem_toFinset.mp hx)
          have hlen : (visited ++ [(nt.1, depth + 1)]).toFinset.card =
              visited.length + 1 := by
            rw [List.toFinset_card_of_nodup h1']
            simp
          have hcc := Finset.card_le_card hsub
          rw [hlen] at hcc
          exact hcc
        simp only [List.length_append, List.length_singleton]
        omega

theorem bfsLoop_isSome (edges : List GEdge) (source target : String) (maxDepth : Nat) :
    ∀ (fuel : Nat) (queue : List QEntry) (visited : List BfsState),
      visited.Nodup →
      (∀ s ∈ visited, s ∈ bfsSpace edges source maxDepth) →
      queue.length + ((bfsSpace edges source maxDepth).card - visited.length) ≤ fuel →
      (bfsLoop edges target maxDepth fuel queue visited).isSome = true := by
  intro fuel
  induction fuel with
  | zero =>
      intro queue visited _ _ hle
      cases queue with
      | nil => rfl
      | cons q qs => simp at hle
  | succ fuel ih =>
      intro queue visited h1 h2 hle
      cases queue with
      | nil => rfl
      | cons q qs =>
          obtain ⟨node, depth, path⟩ := q
          rw [bfsLoop]
          split
          · rfl
          · split
            · apply ih qs visited h1 h2
              simp only [List.length_cons] at hle
              omega
            · next hdepth =>
              have hsucc : ∀ nt ∈ successors edges node,
                  ((nt.1 : String), depth + 1) ∈ bfsSpace edges source maxDepth := by
                intro nt hnt
                simp only [successors, List.mem_map, List.mem_filter] at hnt
                obtain ⟨e, ⟨he, _⟩, rfl⟩ := hnt
                simp only [bfsSpace, Finset.mem_product, Finset.mem_range]
                constructor
                · simp only [bfsNodes, Finset.mem_insert, List.mem_toFinset, List.mem_map]
                  exact Or.inr ⟨e, he, rfl⟩
                · omega
              have hinv := bfsExpand_invariant (bfsSpace edges source maxDepth) node depth path
                (successors edges node) qs visited h1 h2 hsucc
              apply ih _ _ hinv.1 hinv.2.1
              have hm := hinv.2.2
              simp only [List.length_cons] at hle
              omega

/-- C8: _path_exists terminates on every input, cyclic graphs included:
the supplied depth is clamped into [1, 10] (and the default 5 is kept by
the clamp), the breadth-first loop with (node, depth) visited-state
deduplication always completes within the computed fuel bound (the loop
result is never the ran-out-of-fuel marker), and on the cyclic graph
A to B to A a query for the unreachable target C returns exists false
with no path. -/
theorem C8_path_exists_terminates :
    (∀ d : Int, 1 ≤ clampDepth d ∧ clampDepth d ≤ 10) ∧
    clampDepth 5 = 5 ∧
    (∀ (edges : List GEdge) (source target : String) (d : Int),
       (bfsLoop edges target (clampDepth d)
         (bfsFuel edges source (clampDepth d)) [(source, 0, [])] [(source, 0)]).isSome = true) ∧
    path_exists c8edges "A" "C" 5 = ⟨false, none, []⟩ := by
  refine ⟨?_, rfl, ?_, ?_⟩
  · intro d
    simp only [clampDepth]
    omega
  · intro edges source target d
    apply bfsLoop_isSome
    · exact List.nodup_singleton _
    · intro s hs
      rw [List.mem_singleton.mp hs]
      simp only [bfsSpace, Finset.mem_product, Finset.mem_range, bfsNodes]
      exact ⟨Finset.mem_insert_self _ _, Nat.succ_pos _⟩
    · simp only [bfsFuel, List.length_singleton]
      omega
  · rfl

/-- C9: a path query whose source equals its target succeeds immediately
with depth 0 and the empty path, for every graph and every requested
depth at least 0. -/
theorem C9_path_exists_refl (edges : List GEdge) (source : String) (d : Int)
    (hd : 0 ≤ d) :
    path_exists edges source source d = ⟨true, some 0, []⟩ := by
  simp only [path_exists, bfsFuel]
  rw [bfsLoop]
  simp

/-- Witness for C9: the self query on the cyclic example graph. -/
theorem C9_path_exists_refl_witness :
    (0 : Int) ≤ 3 ∧ path_exists c8edges "A" "A" 3 = ⟨true, some 0, []⟩ :=
  ⟨by decide, C9_path_exists_refl c8edges "A" 3 (by decide)⟩

/-- C10: releasing a lock held by some owner succeeds and removes the
lock whenever the caller omits the owner or passes the empty string,
even without force; the owner-mismatch failure occurs exactly when a
non-empty owner differing from the holder is supplied with force off. -/
theorem C10_release_lock :
    (∀ (ms : ModelState) (l : Lock), ms.lock = some l →
       release_lock none false ms =
         Except.ok (⟨"released", some l.owner⟩, { ms with lock := none }) ∧
       release_lock (some "") false ms =
         Except.ok (⟨"released", some l.owner⟩, { ms with lock := none })) ∧
    (∀ (ms : ModelState) (l : Lock) (o : String), ms.lock = some l →
       (release_lock (some o) false ms =
          Except.error (Err.lockOwnerMismatch ms.meta.id l.owner) ↔
        (o ≠ "" ∧ o ≠ l.owner))) := by
  have he : ("" : String).isEmpty = true := (String.isEmpty_iff "").mpr rfl
  constructor
  · intro ms l hl
    constructor <;> simp [release_lock, hl, he]
  · intro ms l o hl
    simp only [release_lock, hl]
    by_cases h1 : o = ""
    · subst h1
      simp [he]
    · by_cases h2 : o = l.owner
      · subst h2
        simp [h1]
      · have hne : (o != l.owner) = true := bne_iff_ne.mpr h2
        have hemp : o.isEmpty = false := by
          cases hiso : o.isEmpty
          · rfl
          · exact absurd ((String.isEmpty_iff o).mp hiso) h1
        simp [hemp, hne, h1, h2]

/-- Witness for C10: with the lock held by bob, an ownerless and an
empty-owner release both succeed, and a mismatched owner fails. -/
theorem C10_release_lock_witness :
    c10ms.lock = some ⟨"bob", 5⟩ ∧
    release_lock none false c10ms =
      Except.ok (⟨"released", some "bob"⟩, { c10ms with lock := none }) ∧
    release_lock (some "") false c10ms =
      Except.ok (⟨"released", some "bob"⟩, { c10ms with lock := none }) ∧
    release_lock (some "eve") false c10ms =
      Except.error (Err.lockOwnerMismatch "m" "bob") := by
  refine ⟨rfl, (C10_release_lock.1 c10ms ⟨"bob", 5⟩ rfl).1,
    (C10_release_lock.1 c10ms ⟨"bob", 5⟩ rfl).2, ?_⟩
  exact (C10_release_lock.2 c10ms ⟨"bob", 5⟩ "eve" rfl).mpr ⟨by decide, by decide⟩

end McpArchi
